import Mathlib

/-!
Verification development for the docylit editor core: the text-statistics
engine, the debounced autosave scheduler, the title write-through effect
(src/App.tsx), and the AI assistance client and session controller
(src/services/geminiService.ts, src/App.tsx).

Strings of the editing surface are modelled as `String` where only equality
matters and as `List Char` where character-level structure matters (stats).
The generative-AI backend is modelled as an oracle supplied in the
environment; timers are modelled by explicit millisecond ticks.
-/

/-! Stats engine (src/App.tsx, updateStats) -/

/-- Whitespace test used uniformly for `trim` and the `\s` regex class
(the common characters: space, tab, LF, CR, VT, FF). -/
def isWs (c : Char) : Bool :=
  c = ' ' || c = '\t' || c = '\n' || c = '\r' || c = '\x0b' || c = '\x0c'

/-- JS `String.prototype.trim`: drop leading and trailing whitespace. -/
def trim (l : List Char) : List Char :=
  ((l.dropWhile isWs).reverse.dropWhile isWs).reverse

/-- JS `str.split(/\s+/)` as a two-state scanner.  `inSkip` means we are
inside a whitespace run whose preceding segment has already been emitted.
A leading whitespace run yields a leading empty segment and a trailing run
yields a trailing empty segment, exactly as the JS regex split does. -/
def splitWsAux (inSkip : Bool) (cur : List Char) : List Char → List (List Char)
  | [] => if inSkip then [[]] else [cur.reverse]
  | c :: cs =>
    if inSkip then
      if isWs c then splitWsAux true [] cs
      else splitWsAux false [c] cs
    else
      if isWs c then cur.reverse :: splitWsAux true [] cs
      else splitWsAux false (c :: cur) cs

/-- JS `str.split(/\s+/)` (the form used by `updateStats` in the source). -/
def jsSplitWs (l : List Char) : List (List Char) :=
  splitWsAux false [] l

/-- Modelled from the spec: the maximal whitespace-delimited non-empty
segments of a string ("split on runs of one-or-more whitespace characters"),
to be compared with the source's `jsSplitWs`. -/
def wordSegGo (cur : List Char) : List Char → List (List Char)
  | [] => if cur = [] then [] else [cur.reverse]
  | c :: cs =>
    if isWs c then
      if cur = [] then wordSegGo [] cs else cur.reverse :: wordSegGo [] cs
    else wordSegGo (c :: cur) cs

/-- Modelled from the spec: segment list of a text (see `wordSegGo`). -/
def wordSegments (l : List Char) : List (List Char) :=
  wordSegGo [] l

/-- The derived statistics record (`stats` state in src/App.tsx). -/
structure TextStats where
  words : Nat
  chars : Nat
deriving DecidableEq, Repr

/-- `updateStats` (src/App.tsx lines 70-78): word count is 0 for a
whitespace-only text and otherwise `text.trim().split(/\s+/).length`;
character count is `text.length`. -/
def updateStats (text : List Char) : TextStats :=
  { words := if trim text = [] then 0 else (jsSplitWs (trim text)).length
    chars := text.length }

/-! Autosave scheduler and persistence (src/App.tsx) -/

/-- Debounce delay of the content save timer (src/App.tsx: 1000 ms). -/
def DEBOUNCE_MS : Nat := 1000

/-- Observable state of the App component relevant to persistence: the
`title` state, the editing surface markup, the `isSaving` flag, the single
debounce timer (remaining milliseconds and the `title` value captured by the
scheduled closure), the two durable-store keys `docylit-content` and
`docylit-title`, and a log of the (content, title) pairs written by timer
fires. -/
structure SchedState where
  title : String
  editorHTML : String
  isSaving : Bool
  timer : Option (Nat × String)
  storeContent : Option String
  storeTitle : Option String
  contentWrites : List (String × String)
deriving DecidableEq, Repr

/-- `handleInput` (src/App.tsx lines 98-117): the editing surface now holds
`newHTML`; set `isSaving`, clear any existing timer and schedule a fresh
1000 ms timer whose callback closes over the current `title`.  (The stats
recomputation it also performs is modelled separately by `updateStats`,
which reads the surface's plain text.) -/
def handleInput (s : SchedState) (newHTML : String) : SchedState :=
  { s with
    editorHTML := newHTML
    isSaving := true
    timer := some (DEBOUNCE_MS, s.title) }

/-- The title change path (src/App.tsx lines 119-122): `setTitle` plus the
effect that immediately writes `docylit-title`.  It touches neither the
timer nor `isSaving` nor the content key. -/
def setTitle (s : SchedState) (t : String) : SchedState :=
  { s with title := t, storeTitle := some t }

/-- The debounce timer callback (src/App.tsx lines 108-116): write the
current surface markup to `docylit-content` and the captured title to
`docylit-title`, clear `isSaving`, and log the persisted write. -/
def fireTimer (s : SchedState) (capturedTitle : String) : SchedState :=
  { s with
    storeContent := some s.editorHTML
    storeTitle := some capturedTitle
    contentWrites := s.contentWrites ++ [(s.editorHTML, capturedTitle)]
    isSaving := false
    timer := none }

/-- One millisecond of wall-clock time: a pending timer counts down and runs
its callback when its delay elapses. -/
def tick (s : SchedState) : SchedState :=
  match s.timer with
  | none => s
  | some (n, t) => if n ≤ 1 then fireTimer s t else { s with timer := some (n - 1, t) }

/-- External events driving the scheduler model. -/
inductive Ev where
  | edit (newHTML : String)
  | setTitleEv (t : String)
  | tick
deriving DecidableEq, Repr

/-- Event dispatch. -/
def stepEv (s : SchedState) : Ev → SchedState
  | .edit h => handleInput s h
  | .setTitleEv t => setTitle s t
  | .tick => tick s

/-- Run a sequence of events. -/
def runEvs (s : SchedState) (evs : List Ev) : SchedState :=
  evs.foldl stepEv s

/-- `n` milliseconds of elapsed time. -/
def ticks (n : Nat) : List Ev :=
  List.replicate n Ev.tick

/-- An edit burst: each `(g, h)` waits `g` milliseconds and then fires an
edit event leaving the surface with markup `h`. -/
def burstTrace : List (Nat × String) → List Ev
  | [] => []
  | (g, h) :: rest => ticks g ++ Ev.edit h :: burstTrace rest

/-! AI assistance client (src/services/geminiService.ts) -/

/-- The writing-assistance mode union (`'continue' | 'summarize' | 'fix' |
'tone' | 'custom'`). -/
inductive Mode where
  | continue'
  | summarize
  | fix
  | tone
  | custom
deriving DecidableEq, Repr

/-- A request dispatched to the generative backend (`generateContent` /
`generateContentStream` argument).  The temperature 0.7 is recorded as the
exact rational pair (7, 10). -/
structure GenRequest where
  model : String
  contents : String
  systemInstruction : String
  temperature : Option (Nat × Nat)
deriving DecidableEq, Repr

/-- Outcome of a single backend call: a response whose `text` field may be
absent, or a thrown transport/backend error. -/
inductive BackendResult where
  | success (text : Option String)
  | failure
deriving DecidableEq, Repr

/-- Environment of the single-shot client: the configured credential
(`process.env.API_KEY`) and the backend treated as an oracle. -/
structure GenEnv where
  apiKey : Option String
  backend : GenRequest → BackendResult

/-- What the caller of `generateWritingAssistance` observes: a returned
string, or a propagated exception. -/
inductive GenOutcome where
  | returned (s : String)
  | raised
deriving DecidableEq, Repr

/-- The fixed user-facing apology sentinel returned by the catch branch. -/
def APOLOGY : String := "Sorry, I encountered an error while processing your request."

/-- The mode-to-system-instruction table of `generateWritingAssistance`
(geminiService.ts lines 18-30): a common preamble plus a per-mode suffix. -/
def systemInstructionFor (mode : Mode) : String :=
  "You are a helpful writing assistant integrated into a document editor. " ++
  (match mode with
   | .continue' => "Continue the text naturally based on the provided context. Keep formatting simple (HTML/Markdown)."
   | .summarize => "Provide a concise summary of the provided text."
   | .fix => "Fix grammar and spelling errors in the provided text without changing the meaning."
   | .tone => "Rewrite the text to be more professional and concise."
   | .custom => "Follow the user's specific instructions for the provided text.")

/-- The request built by the single-shot path (geminiService.ts lines
32-40). -/
def buildGenRequest (prompt context : String) (mode : Mode) : GenRequest :=
  { model := "gemini-2.5-flash"
    contents := "Context/Current Text: \"" ++ context ++ "\"\n\nTask: " ++ prompt
    systemInstruction := systemInstructionFor mode
    temperature := some (7, 10) }

/-- `generateWritingAssistance` (geminiService.ts lines 11-46).  The whole
body, including the `getAI()` credential check, sits in one `try`: a missing
key throws inside the `try` and the `catch` returns `APOLOGY` with nothing
dispatched.  With a key, the built request is dispatched; a backend failure
is caught to `APOLOGY`, and a successful response yields `text || ""`.
The second component lists the backend calls actually dispatched. -/
def generateWritingAssistance (env : GenEnv) (prompt context : String) (mode : Mode) :
    GenOutcome × List GenRequest :=
  match env.apiKey with
  | none => (.returned APOLOGY, [])
  | some _ =>
    let req := buildGenRequest prompt context mode
    match env.backend req with
    | .failure => (.returned APOLOGY, [req])
    | .success txt => (.returned (txt.getD ("")), [req])

/-- How a backend stream terminates: normal end, or a thrown error. -/
inductive StreamEnd where
  | done
  | error
deriving DecidableEq, Repr

/-- The backend's behaviour for one streaming call: the `text` fields of the
chunks delivered, in arrival order, then the termination.  On `error`, the
error is thrown after the listed chunks were delivered. -/
structure StreamScript where
  chunks : List (Option String)
  ending : StreamEnd
deriving DecidableEq, Repr

/-- Environment of the streaming client. -/
structure StreamEnv where
  apiKey : Option String
  script : StreamScript
deriving DecidableEq, Repr

/-- The error sentinel chunk of the streaming catch branch. -/
def STREAM_ERROR_SENTINEL : String := "[Error: Failed to generate content]"

/-- The request built by the streaming path (geminiService.ts lines
55-62). -/
def buildStreamRequest (prompt context : String) : GenRequest :=
  { model := "gemini-2.5-flash"
    contents := "Context: \"" ++ context ++ "\"\n\nInstruction: " ++ prompt
    systemInstruction := "You are an intelligent writing assistant. Return raw text or simple HTML suitable for a contentEditable div."
    temperature := none }

/-- The `for await` loop body (geminiService.ts lines 64-68): `onChunk` is
called for each chunk whose `text` is present and non-empty (the JS
truthiness test `if (chunk.text)`). -/
def emitChunks : List (Option String) → List String
  | [] => []
  | c :: cs =>
    match c with
    | some t => if t = "" then emitChunks cs else t :: emitChunks cs
    | none => emitChunks cs

/-- `streamWritingAssistance` (geminiService.ts lines 48-72).  Result:
the sequence of `onChunk` invocations in order, whether an exception
propagated to the caller, and the backend calls dispatched.  A missing key
throws inside the `try`; the `catch` invokes `onChunk` with the sentinel.
A mid-stream error likewise ends in exactly one sentinel invocation. -/
def streamWritingAssistance (env : StreamEnv) (prompt context : String) :
    List String × Bool × List GenRequest :=
  match env.apiKey with
  | none => ([STREAM_ERROR_SENTINEL], false, [])
  | some _ =>
    let req := buildStreamRequest prompt context
    match env.script.ending with
    | .done => (emitChunks env.script.chunks, false, [req])
    | .error => (emitChunks env.script.chunks ++ [STREAM_ERROR_SENTINEL], false, [req])

/-- The non-empty chunk texts of a script, in arrival order (the reference
shape for the delivery-order statement). -/
def chunkTexts (chunks : List (Option String)) : List String :=
  chunks.filterMap (fun c =>
    match c with
    | some t => if t = "" then none else some t
    | none => none)

/-! Assistance session controller (src/App.tsx) -/

/-- The AI-related component state: prompt field, loading flag, held result
(`aiResponse`, `null` when absent), and modal visibility. -/
structure AiSession where
  aiPrompt : String
  aiLoading : Bool
  aiResponse : Option String
  showAiModal : Bool
deriving DecidableEq, Repr

/-- The canned-instruction derivation of `handleAiRequest` (src/App.tsx
lines 141-151): an empty prompt is replaced by a mode-dependent default
(`custom` reaches the switch's default branch). -/
def promptFor (aiPrompt : String) (mode : Mode) : String :=
  if aiPrompt = "" then
    match mode with
    | .summarize => "Summarize this text concisely."
    | .fix => "Fix grammar, spelling, and punctuation errors."
    | .tone => "Rewrite this to sound more professional and concise."
    | .continue' => "Continue writing naturally based on the context."
    | .custom => "Help me write."
  else aiPrompt

/-- `handleAiRequest` (src/App.tsx lines 132-161).  The guard
`if (!aiPrompt && mode === 'continue') return;` leaves the state untouched
and dispatches nothing.  Otherwise the derived prompt is sent through the
client; the resulting string (success or apology sentinel alike) lands in
`aiResponse`, and the `catch` branch stores its own error string.  Context
capture (selection or full text) happens before the call and is taken here
as the `context` argument. -/
def handleAiRequest (env : GenEnv) (st : AiSession) (context : String) (mode : Mode) :
    AiSession × List GenRequest :=
  if st.aiPrompt = "" ∧ mode = Mode.continue' then (st, [])
  else
    match generateWritingAssistance env (promptFor st.aiPrompt mode) context mode with
    | (.returned r, calls) => ({ st with aiLoading := false, aiResponse := some r }, calls)
    | (.raised, calls) =>
      ({ st with
         aiLoading := false
         aiResponse := some ("Error generating content. Please try again.") }, calls)

/-- `insertAiContent` (src/App.tsx lines 163-172).  Guarded by JS truthiness
of `aiResponse`: for a held non-empty string it inserts that string at the
cursor, clears the held result and the prompt, closes the modal and invokes
`handleInput` (the autosave edit-event).  Result: (new session state,
text inserted into the surface if any, whether the autosave edit-event was
triggered). -/
def insertAiContent (st : AiSession) : AiSession × Option String × Bool :=
  match st.aiResponse with
  | some r =>
    if r = "" then (st, none, false)
    else ({ st with aiResponse := none, aiPrompt := "", showAiModal := false }, some r, true)
  | none => (st, none, false)

/-! Auxiliary lemmas about whitespace splitting -/

/-- A no-trailing-whitespace bound passes from a list to its tail. -/
theorem trailOk_tail {c : Char} {cs : List Char}
    (h : ∀ x, (c :: cs).getLast? = some x → isWs x = false) :
    ∀ x, cs.getLast? = some x → isWs x = false := by
  intro x hx
  cases cs with
  | nil => simp at hx
  | cons b l => exact h x (by rw [List.getLast?_cons_cons]; exact hx)

/-- A list with whitespace head and no trailing whitespace has a non-empty
tail. -/
theorem trailOk_ws_ne_nil {c : Char} {cs : List Char} (hc : isWs c = true)
    (h : ∀ x, (c :: cs).getLast? = some x → isWs x = false) : cs ≠ [] := by
  intro hnil
  subst hnil
  have := h c (by simp)
  rw [hc] at this
  exact Bool.noConfusion this

/-- On inputs with no trailing whitespace, the JS split scanner and the
spec's segment scanner agree, both from segment state (non-empty
accumulator) and from separator state (non-empty remainder). -/
theorem splitWsAux_eq_wordSegGo :
    ∀ (n : Nat) (s : List Char), s.length ≤ n →
      (∀ x, s.getLast? = some x → isWs x = false) →
      ((∀ cur, cur ≠ [] → splitWsAux false cur s = wordSegGo cur s) ∧
       (s ≠ [] → splitWsAux true [] s = wordSegGo [] s)) := by
  intro n
  induction n with
  | zero =>
    intro s hs _
    have hnil : s = [] := List.length_eq_zero.mp (Nat.le_zero.mp hs)
    subst hnil
    constructor
    · intro cur hcur
      simp [splitWsAux, wordSegGo, hcur]
    · intro h; exact absurd rfl h
  | succ n ih =>
    intro s hs htrail
    cases s with
    | nil =>
      constructor
      · intro cur hcur; simp [splitWsAux, wordSegGo, hcur]
      · intro h; exact absurd rfl h
    | cons c cs =>
      have hcs : cs.length ≤ n := by
        have : cs.length + 1 ≤ n + 1 := by simpa using hs
        omega
      have htail := trailOk_tail htrail
      by_cases hc : isWs c = true
      · have hne : cs ≠ [] := trailOk_ws_ne_nil hc htrail
        constructor
        · intro cur hcur
          simp only [splitWsAux, wordSegGo, hc, Bool.false_eq_true, if_true, if_false,
            if_neg hcur]
          exact congrArg _ ((ih cs hcs htail).2 hne)
        · intro _
          simp only [splitWsAux, wordSegGo, hc, Bool.false_eq_true, if_true, if_false]
          exact (ih cs hcs htail).2 hne
      · have hc' : isWs c = false := by
          cases h : isWs c with
          | true => exact absurd h hc
          | false => rfl
        constructor
        · intro cur hcur
          simp only [splitWsAux, wordSegGo, hc', Bool.false_eq_true, if_false]
          exact (ih cs hcs htail).1 (c :: cur) (by simp)
        · intro _
          simp only [splitWsAux, wordSegGo, hc', Bool.false_eq_true, if_false]
          exact (ih cs hcs htail).1 [c] (by simp)

/-- The head of a `dropWhile` result does not satisfy the predicate. -/
theorem dropWhile_head_not (p : Char → Bool) :
    ∀ (l : List Char) (x : Char), (l.dropWhile p).head? = some x → p x = false := by
  intro l
  induction l with
  | nil => intro x hx; simp at hx
  | cons c cs ih =>
    intro x hx
    by_cases hc : p c = true
    · rw [List.dropWhile_cons_of_pos hc] at hx
      exact ih x hx
    · have hc' : p c = false := by
        cases h : p c with
        | true => exact absurd h hc
        | false => rfl
      rw [List.dropWhile_cons_of_neg (by simp [hc'])] at hx
      simp at hx
      rw [← hx]
      exact hc'

/-- `dropWhile` removes only a leading segment, so when its result is
non-empty it keeps the last element. -/
theorem dropWhile_getLast? (p : Char → Bool) :
    ∀ (l : List Char) (x : Char), (l.dropWhile p).getLast? = some x → l.getLast? = some x := by
  intro l
  induction l with
  | nil => intro x hx; simp at hx
  | cons c cs ih =>
    intro x hx
    by_cases hc : p c = true
    · rw [List.dropWhile_cons_of_pos hc] at hx
      have hcs := ih x hx
      cases cs with
      | nil => simp at hcs
      | cons b l' => rw [List.getLast?_cons_cons]; exact hcs
    · have hc' : p c = false := by
        cases h : p c with
        | true => exact absurd h hc
        | false => rfl
      rw [List.dropWhile_cons_of_neg (by simp [hc'])] at hx
      exact hx

/-- A trimmed string does not start with whitespace. -/
theorem trim_head_not (l : List Char) (x : Char) (hx : (trim l).head? = some x) :
    isWs x = false := by
  unfold trim at hx
  rw [List.head?_reverse] at hx
  have h2 := dropWhile_getLast? isWs _ x hx
  rw [List.getLast?_reverse] at h2
  exact dropWhile_head_not isWs l x h2

/-- A trimmed string does not end with whitespace. -/
theorem trim_getLast_not (l : List Char) (x : Char) (hx : (trim l).getLast? = some x) :
    isWs x = false := by
  unfold trim at hx
  rw [List.getLast?_reverse] at hx
  exact dropWhile_head_not isWs _ x hx

/-- The JS split scanner always returns at least one segment. -/
theorem splitWsAux_ne_nil : ∀ (s : List Char) (b : Bool) (cur : List Char),
    splitWsAux b cur s ≠ [] := by
  intro s
  induction s with
  | nil =>
    intro b cur
    cases b <;> simp [splitWsAux]
  | cons c cs ih =>
    intro b cur
    cases b with
    | false =>
      by_cases hc : isWs c = true
      · simp [splitWsAux, hc]
      · have hc' : isWs c = false := by
          cases h : isWs c with
          | true => exact absurd h hc
          | false => rfl
        simp only [splitWsAux, hc', Bool.false_eq_true, if_false]
        exact ih false (c :: cur)
    | true =>
      by_cases hc : isWs c = true
      · simp only [splitWsAux, hc, if_true]
        exact ih true []
      · have hc' : isWs c = false := by
          cases h : isWs c with
          | true => exact absurd h hc
          | false => rfl
        simp only [splitWsAux, hc', Bool.false_eq_true, if_false, if_true]
        exact ih false [c]

/-- On a non-empty string with neither leading nor trailing whitespace (such
as a non-empty trimmed string), the JS regex split equals the spec's
maximal-segment split. -/
theorem jsSplitWs_eq_wordSegments (s : List Char) (hne : s ≠ [])
    (hhead : ∀ x, s.head? = some x → isWs x = false)
    (htrail : ∀ x, s.getLast? = some x → isWs x = false) :
    jsSplitWs s = wordSegments s := by
  cases s with
  | nil => exact absurd rfl hne
  | cons c cs =>
    have hc : isWs c = false := hhead c (by simp)
    unfold jsSplitWs wordSegments
    simp only [splitWsAux, wordSegGo, hc, Bool.false_eq_true, if_false]
    exact (splitWsAux_eq_wordSegGo cs.length cs le_rfl (trailOk_tail htrail)).1 [c] (by simp)

/-! Auxiliary lemmas about the event model -/

/-- Running a concatenation of event lists runs them in sequence. -/
theorem runEvs_append (s : SchedState) (a b : List Ev) :
    runEvs s (a ++ b) = runEvs (runEvs s a) b :=
  List.foldl_append stepEv s a b

/-- Elapsed time without a pending timer changes nothing. -/
theorem ticks_none (s : SchedState) (h : s.timer = none) :
    ∀ g : Nat, runEvs s (ticks g) = s := by
  intro g
  induction g with
  | zero => rfl
  | succ g ih =>
    have hstep : stepEv s Ev.tick = s := by
      simp [stepEv, tick, h]
    calc runEvs s (ticks (g + 1))
        = runEvs (stepEv s Ev.tick) (ticks g) := by
          simp [ticks, runEvs, List.replicate_succ]
      _ = runEvs s (ticks g) := by rw [hstep]
      _ = s := ih

/-- Elapsed time shorter than the pending delay only counts the timer down;
no write fires. -/
theorem ticks_pending : ∀ (g n : Nat) (t : String) (s : SchedState),
    s.timer = some (n, t) → g < n →
    runEvs s (ticks g) = { s with timer := some (n - g, t) } := by
  intro g
  induction g with
  | zero =>
    intro n t s h _
    obtain ⟨ti, ed, sv, tm, sc, st, cw⟩ := s
    simp only at h
    subst h
    rfl
  | succ g ih =>
    intro n t s h hlt
    have h2 : ¬ n ≤ 1 := by omega
    have hstep : stepEv s Ev.tick = { s with timer := some (n - 1, t) } := by
      simp [stepEv, tick, h, h2]
    calc runEvs s (ticks (g + 1))
        = runEvs (stepEv s Ev.tick) (ticks g) := by
          simp [ticks, runEvs, List.replicate_succ]
      _ = { s with timer := some (n - 1 - g, t) } := by
          rw [hstep]; exact ih (n - 1) t _ rfl (by omega)
      _ = { s with timer := some (n - (g + 1), t) } := by
          have : n - 1 - g = n - (g + 1) := by omega
          rw [this]

/-- When exactly the pending delay elapses, the timer fires its callback. -/
theorem ticks_fire : ∀ (n : Nat) (t : String) (s : SchedState),
    s.timer = some (n, t) → 1 ≤ n →
    runEvs s (ticks n) = fireTimer s t := by
  intro n
  induction n with
  | zero => intro t s _ h1; omega
  | succ n ih =>
    intro t s h h1
    cases Nat.eq_zero_or_pos n with
    | inl hz =>
      subst hz
      have hstep : stepEv s Ev.tick = fireTimer s t := by
        simp [stepEv, tick, h]
      calc runEvs s (ticks 1)
          = runEvs (stepEv s Ev.tick) (ticks 0) := by
            simp [ticks, runEvs, List.replicate_succ]
        _ = fireTimer s t := by rw [hstep]; rfl
    | inr hp =>
      have h2 : ¬ n + 1 ≤ 1 := by omega
      have hstep : stepEv s Ev.tick = { s with timer := some (n, t) } := by
        simp [stepEv, tick, h, h2]
      have hfire : fireTimer { s with timer := some (n, t) } t = fireTimer s t := by
        obtain ⟨ti, ed, sv, tm, sc, st, cw⟩ := s
        rfl
      calc runEvs s (ticks (n + 1))
          = runEvs (stepEv s Ev.tick) (ticks n) := by
            simp [ticks, runEvs, List.replicate_succ]
        _ = fireTimer s t := by rw [hstep, ih t _ rfl hp, hfire]

/-- Running a burst of edits whose gaps are all below the debounce delay,
from a state whose timer is clean or freshly scheduled, performs no
persisted write and leaves the surface at the last edit's content with a
fresh full-delay timer capturing the unchanged title. -/
theorem burst_run : ∀ (pre : List (Nat × String)) (g : Nat) (h : String) (s : SchedState),
    (∀ p ∈ pre ++ [(g, h)], p.1 < DEBOUNCE_MS) →
    (s.timer = none ∨ s.timer = some (DEBOUNCE_MS, s.title)) →
    runEvs s (burstTrace (pre ++ [(g, h)])) =
      { s with editorHTML := h, isSaving := true, timer := some (DEBOUNCE_MS, s.title) } := by
  intro pre
  induction pre with
  | nil =>
    intro g h s hgap hinv
    have hs1 : ∃ s1 : SchedState, runEvs s (ticks g) = s1 ∧
        s1.title = s.title ∧ s1.storeContent = s.storeContent ∧
        s1.storeTitle = s.storeTitle ∧ s1.contentWrites = s.contentWrites := by
      cases hinv with
      | inl hnone => exact ⟨s, ticks_none s hnone g, rfl, rfl, rfl, rfl⟩
      | inr hsome =>
        by_cases hg : g = 0
        · subst hg; exact ⟨s, rfl, rfl, rfl, rfl, rfl⟩
        · have hglt : g < DEBOUNCE_MS := hgap (g, h) (by simp)
          exact ⟨{ s with timer := some (DEBOUNCE_MS - g, s.title) },
            ticks_pending g DEBOUNCE_MS s.title s hsome hglt, rfl, rfl, rfl, rfl⟩
    obtain ⟨s1, hrun, ht1, hc1, hst1, hw1⟩ := hs1
    have hbt : burstTrace ([] ++ [(g, h)]) = ticks g ++ [Ev.edit h] := by simp [burstTrace]
    rw [hbt, runEvs_append, hrun]
    show stepEv s1 (Ev.edit h) = _
    obtain ⟨ti, ed, sv, tm, sc, st, cw⟩ := s
    obtain ⟨ti1, ed1, sv1, tm1, sc1, st1, cw1⟩ := s1
    simp only at ht1 hc1 hst1 hw1
    subst ht1; subst hc1; subst hst1; subst hw1
    rfl
  | cons p0 pre' ih =>
    intro g h s hgap hinv
    obtain ⟨g0, h0⟩ := p0
    have hs1 : ∃ s1 : SchedState, runEvs s (ticks g0) = s1 ∧
        s1.title = s.title ∧ s1.storeContent = s.storeContent ∧
        s1.storeTitle = s.storeTitle ∧ s1.contentWrites = s.contentWrites := by
      cases hinv with
      | inl hnone => exact ⟨s, ticks_none s hnone g0, rfl, rfl, rfl, rfl⟩
      | inr hsome =>
        by_cases hg : g0 = 0
        · subst hg; exact ⟨s, rfl, rfl, rfl, rfl, rfl⟩
        · have hglt : g0 < DEBOUNCE_MS := hgap (g0, h0) (by simp)
          exact ⟨{ s with timer := some (DEBOUNCE_MS - g0, s.title) },
            ticks_pending g0 DEBOUNCE_MS s.title s hsome hglt, rfl, rfl, rfl, rfl⟩
    obtain ⟨s1, hrun, ht1, hc1, hst1, hw1⟩ := hs1
    have hbt : burstTrace (((g0, h0) :: pre') ++ [(g, h)]) =
        (ticks g0 ++ [Ev.edit h0]) ++ burstTrace (pre' ++ [(g, h)]) := by
      simp [burstTrace]
    rw [hbt, runEvs_append, runEvs_append, hrun]
    have hs2 : runEvs s1 [Ev.edit h0] = stepEv s1 (Ev.edit h0) := rfl
    rw [hs2]
    have hstep : stepEv s1 (Ev.edit h0) = { s1 with editorHTML := h0, isSaving := true, timer := some (DEBOUNCE_MS, s1.title) } := rfl
    rw [hstep]
    rw [ih g h { s1 with editorHTML := h0, isSaving := true, timer := some (DEBOUNCE_MS, s1.title) } (fun p hp => hgap p (by simp at hp ⊢; tauto)) (Or.inr rfl)]
    obtain ⟨ti, ed, sv, tm, sc, st, cw⟩ := s
    obtain ⟨ti1, ed1, sv1, tm1, sc1, st1, cw1⟩ := s1
    simp only at ht1 hc1 hst1 hw1
    subst ht1; subst hc1; subst hst1; subst hw1
    rfl

/-- The loop body of the streaming client delivers, in order, exactly the
present-and-non-empty chunk texts. -/
theorem emitChunks_eq_chunkTexts : ∀ cs : List (Option String),
    emitChunks cs = chunkTexts cs := by
  intro cs
  induction cs with
  | nil => rfl
  | cons c0 cs ih =>
    cases c0 with
    | none => simpa [emitChunks, chunkTexts, List.filterMap_cons] using ih
    | some t =>
      by_cases ht : t = ""
      · subst ht; simpa [emitChunks, chunkTexts, List.filterMap_cons] using ih
      · simp only [emitChunks, chunkTexts, List.filterMap_cons, if_neg ht] at ih ⊢
        simp [ht, ih]

/-! Claim theorems -/

/-- Claim C1, counterexample: with no backend credential configured, the
single-shot entry point does NOT raise the missing-credential error to the
caller; it returns the normal success-shaped sentinel (the apology string),
and the streaming entry point likewise delivers the error sentinel chunk
instead of raising.  This refutes the claim that both entry points raise
the configuration error and never swallow it into the success-shaped
sentinel. -/
theorem generate_missingKey_swallowed :
    generateWritingAssistance ⟨none, fun _ => BackendResult.success (some ("ok"))⟩ ("p") ("c")
        Mode.summarize = (GenOutcome.returned APOLOGY, []) ∧
    (generateWritingAssistance ⟨none, fun _ => BackendResult.success (some ("ok"))⟩ ("p") ("c")
        Mode.summarize).1 ≠ GenOutcome.raised ∧
    streamWritingAssistance ⟨none, ⟨[some ("hello")], StreamEnd.done⟩⟩ ("p") ("c")
      = ([STREAM_ERROR_SENTINEL], false, []) :=
  ⟨rfl, by decide, rfl⟩

/-- Claim C1 as amended: for every assistance request issued while no
backend credential is configured, the error thrown by the credential
accessor is caught by each entry point's own handler: `generate` returns
the apology sentinel string and `generateStream` invokes `onChunk` exactly
once with the error sentinel chunk; neither raises to the caller and
neither dispatches any backend request. -/
theorem missingKey_sentinel_outcomes (backend : GenRequest → BackendResult)
    (script : StreamScript) (p c : String) (m : Mode) :
    generateWritingAssistance ⟨none, backend⟩ p c m = (GenOutcome.returned APOLOGY, []) ∧
    streamWritingAssistance ⟨none, script⟩ p c = ([STREAM_ERROR_SENTINEL], false, []) :=
  ⟨rfl, rfl⟩

/-- Claim C2: for every burst of N ≥ 1 edit events in which each event
occurs less than the 1000 ms debounce delay after the previous one, exactly
one persisted content write occurs, containing the editing-surface content
as of the last event; and every edit event unconditionally replaces the
scheduled timer with a fresh full-delay one (cancel before reschedule), so
only the final event of the burst triggers the write. -/
theorem handleInput_debounce (pre : List (Nat × String)) (g : Nat) (h : String)
    (s : SchedState)
    (hgap : ∀ p ∈ pre ++ [(g, h)], p.1 < DEBOUNCE_MS)
    (ht : s.timer = none) (hw : s.contentWrites = []) :
    (runEvs s (burstTrace (pre ++ [(g, h)]) ++ ticks DEBOUNCE_MS)).contentWrites
      = [(h, s.title)] ∧
    (runEvs s (burstTrace (pre ++ [(g, h)]) ++ ticks DEBOUNCE_MS)).storeContent = some h ∧
    (∀ (s' : SchedState) (html : String),
      (stepEv s' (Ev.edit html)).timer = some (DEBOUNCE_MS, s'.title)) := by
  have hb := burst_run pre g h s hgap (Or.inl ht)
  rw [runEvs_append, hb]
  have hf := ticks_fire DEBOUNCE_MS s.title
    { s with editorHTML := h, isSaving := true, timer := some (DEBOUNCE_MS, s.title) }
    rfl (by simp [DEBOUNCE_MS])
  rw [hf]
  refine ⟨?_, rfl, fun s' html => rfl⟩
  simp [fireTimer, hw]

/-- Claim C2, witness: a two-edit burst with a 3 ms gap, starting clean,
persists exactly one write holding the second edit's content. -/
theorem handleInput_debounce_witness :
    (runEvs ⟨"T", "", false, none, none, none, []⟩
        (burstTrace ([(0, "a")] ++ [(3, "ab")]) ++ ticks DEBOUNCE_MS)).contentWrites
      = [("ab", "T")] ∧
    (runEvs ⟨"T", "", false, none, none, none, []⟩
        (burstTrace ([(0, "a")] ++ [(3, "ab")]) ++ ticks DEBOUNCE_MS)).storeContent
      = some ("ab") :=
  ⟨(handleInput_debounce [(0, "a")] 3 ("ab") ⟨"T", "", false, none, none, none, []⟩
      (by decide) rfl rfl).1,
   (handleInput_debounce [(0, "a")] 3 ("ab") ⟨"T", "", false, none, none, none, []⟩
      (by decide) rfl rfl).2.1⟩

/-- Claim C3: for every text, `updateStats` returns a character count equal
to the text's length (whitespace included), a word count that is zero
exactly when the trimmed text is empty, and otherwise a word count equal to
the number of segments obtained by splitting the trimmed text on runs of
one-or-more whitespace characters. -/
theorem updateStats_spec (text : List Char) :
    (updateStats text).chars = text.length ∧
    ((updateStats text).words = 0 ↔ trim text = []) ∧
    (trim text ≠ [] → (updateStats text).words = (wordSegments (trim text)).length) := by
  refine ⟨rfl, ⟨?_, ?_⟩, ?_⟩
  · intro h
    by_contra hne
    rw [show (updateStats text).words = (jsSplitWs (trim text)).length from by
      simp [updateStats, if_neg hne]] at h
    exact splitWsAux_ne_nil (trim text) false [] (List.length_eq_zero.mp h)
  · intro h
    simp [updateStats, h]
  · intro hne
    have heq := jsSplitWs_eq_wordSegments (trim text) hne
      (fun x hx => trim_head_not text x hx) (fun x hx => trim_getLast_not text x hx)
    simp [updateStats, if_neg hne, heq]

/-- Claim C3, witness: on the concrete text "hi a" (two words, four
characters) the spec segments and the computed stats agree. -/
theorem updateStats_spec_witness :
    (updateStats (['h', 'i', ' ', 'a'])).words
      = (wordSegments (trim (['h', 'i', ' ', 'a']))).length ∧
    (updateStats (['h', 'i', ' ', 'a'])).words = 2 :=
  ⟨(updateStats_spec (['h', 'i', ' ', 'a'])).2.2 (by decide), by decide⟩

/-- Claim C4, counterexample: the single-shot client entry point
`generateWritingAssistance`, called directly with an empty prompt and mode
`continue` (and a configured credential), DOES dispatch a backend request.
This refutes the claim that such a call never reaches the backend. -/
theorem generate_emptyContinue_dispatches :
    ((generateWritingAssistance ⟨some ("k"), fun _ => BackendResult.success (some ("ok"))⟩
        ("") ("x") Mode.continue').2).length = 1 ∧
    (generateWritingAssistance ⟨some ("k"), fun _ => BackendResult.success (some ("ok"))⟩
        ("") ("x") Mode.continue').2 = [buildGenRequest ("") ("x") Mode.continue'] :=
  ⟨rfl, rfl⟩

/-- Claim C4 as amended: the empty-continue guard is enforced one level up,
in the session controller: a submit through `handleAiRequest` with an empty
prompt and mode `continue` returns immediately, with no state change and no
backend dispatch, so through the UI path such a request is a no-op; the
client function itself does dispatch when invoked directly. -/
theorem handleAiRequest_emptyContinue_noop (env : GenEnv) (st : AiSession)
    (context : String) (hp : st.aiPrompt = "") :
    handleAiRequest env st context Mode.continue' = (st, []) := by
  simp [handleAiRequest, hp]

/-- Claim C4, witness: the guard at a concrete empty-prompt session. -/
theorem handleAiRequest_emptyContinue_noop_witness :
    handleAiRequest ⟨some ("k"), fun _ => BackendResult.success (some ("ok"))⟩
        ⟨"", false, none, true⟩ ("ctx") Mode.continue'
      = (⟨"", false, none, true⟩, []) :=
  handleAiRequest_emptyContinue_noop
    ⟨some ("k"), fun _ => BackendResult.success (some ("ok"))⟩
    ⟨"", false, none, true⟩ ("ctx") rfl

/-- Claim C5, counterexample: a received chunk whose text is the empty
string is skipped by the truthiness test, so `onChunk` is NOT invoked once
per received chunk: three chunks arrive but only two invocations occur. -/
theorem stream_skipsEmptyTextChunk :
    (streamWritingAssistance ⟨some ("key"), ⟨[some ("a"), some (""), some ("b")],
        StreamEnd.done⟩⟩ ("p") ("c")).1 = ["a", "b"] ∧
    ((streamWritingAssistance ⟨some ("key"), ⟨[some ("a"), some (""), some ("b")],
        StreamEnd.done⟩⟩ ("p") ("c")).1).length ≠
      ([some ("a"), some (""), some ("b")] : List (Option String)).length :=
  ⟨rfl, by decide⟩

/-- Claim C5 as amended: for every streaming run with a configured
credential, `onChunk` is invoked once per received chunk bearing a present
and non-empty text, in arrival order, until the stream ends; on a failure
mid-stream `onChunk` is invoked exactly once more with the error sentinel
chunk, after the chunks already delivered, then nothing further is emitted
and no exception propagates to the caller. -/
theorem streamWritingAssistance_spec (k p c : String) (chunks : List (Option String))
    (ending : StreamEnd) :
    streamWritingAssistance ⟨some k, ⟨chunks, ending⟩⟩ p c =
      (chunkTexts chunks ++
        (match ending with
         | StreamEnd.done => []
         | StreamEnd.error => [STREAM_ERROR_SENTINEL]),
       false, [buildStreamRequest p c]) := by
  cases ending <;> simp [streamWritingAssistance, emitChunks_eq_chunkTexts]

/-- Claim C6: the single-shot client never propagates an exception; with a
configured credential, a transport/backend failure yields the fixed apology
sentinel string, and a successful response with absent text (and likewise
with empty text) yields the empty string rather than an error. -/
theorem generateWritingAssistance_errorHandling (env : GenEnv) (p c : String) (m : Mode) :
    (generateWritingAssistance env p c m).1 ≠ GenOutcome.raised ∧
    (∀ k, env.apiKey = some k →
      ((env.backend (buildGenRequest p c m) = BackendResult.failure →
          (generateWritingAssistance env p c m).1 = GenOutcome.returned APOLOGY) ∧
       (env.backend (buildGenRequest p c m) = BackendResult.success none →
          (generateWritingAssistance env p c m).1 = GenOutcome.returned ("")) ∧
       (env.backend (buildGenRequest p c m) = BackendResult.success (some ("")) →
          (generateWritingAssistance env p c m).1 = GenOutcome.returned ("")))) := by
  obtain ⟨key, backend⟩ := env
  cases key with
  | none =>
    refine ⟨by simp [generateWritingAssistance], ?_⟩
    intro k hk
    simp at hk
  | some k0 =>
    refine ⟨?_, ?_⟩
    · simp only [generateWritingAssistance]
      cases backend (buildGenRequest p c m) <;> simp
    · intro k _
      refine ⟨?_, ?_, ?_⟩ <;> intro hb <;> simp only at hb <;>
        simp [generateWritingAssistance, hb]

/-- Claim C6, witness: a concrete failing backend yields the apology
sentinel. -/
theorem generateWritingAssistance_errorHandling_witness :
    (generateWritingAssistance ⟨some ("k"), fun _ => BackendResult.failure⟩ ("p") ("c")
        Mode.fix).1 = GenOutcome.returned APOLOGY :=
  ((generateWritingAssistance_errorHandling ⟨some ("k"), fun _ => BackendResult.failure⟩
      ("p") ("c") Mode.fix).2 ("k") rfl).1 rfl

/-- Claim C7, counterexample: after a client failure the session holds the
apology string (the spec's `errored` state: a held user-facing error
string), and calling insert from that state DOES insert the held error
string into the editing surface and resets the session.  This refutes the
claim that insert performs no insertion from the errored state. -/
theorem insertAiContent_insertsFromErrored :
    ((handleAiRequest ⟨some ("k"), fun _ => BackendResult.failure⟩
        ⟨"please help", false, none, true⟩ ("ctx") Mode.custom).1).aiResponse
      = some APOLOGY ∧
    (insertAiContent ((handleAiRequest ⟨some ("k"), fun _ => BackendResult.failure⟩
        ⟨"please help", false, none, true⟩ ("ctx") Mode.custom).1)).2.1
      = some APOLOGY ∧
    (insertAiContent ((handleAiRequest ⟨some ("k"), fun _ => BackendResult.failure⟩
        ⟨"please help", false, none, true⟩ ("ctx") Mode.custom).1)).1.aiResponse = none :=
  ⟨rfl, rfl, rfl⟩

/-- Claim C7 as amended: insert acts exactly when the held result string is
non-empty, regardless of whether it arose from success (`responded`) or
failure (`errored`, which holds a non-empty user-facing error string and is
indistinguishable in shape): it inserts the held string at the cursor,
clears the held result and the prompt field, closes the modal (returning
the session to idle) and triggers the autosave edit-event.  From idle and
loading (no held string), and from a responded state holding the empty
string, insert performs no insertion and changes no state. -/
theorem insertAiContent_truthyGuard (st : AiSession) :
    (st.aiResponse = none → insertAiContent st = (st, none, false)) ∧
    (st.aiResponse = some ("") → insertAiContent st = (st, none, false)) ∧
    (∀ r, st.aiResponse = some r → r ≠ "" →
      insertAiContent st =
        ({ st with aiResponse := none, aiPrompt := "", showAiModal := false },
         some r, true)) := by
  refine ⟨?_, ?_, ?_⟩
  · intro h; simp [insertAiContent, h]
  · intro h; simp [insertAiContent, h]
  · intro r h hr; simp [insertAiContent, h, hr]

/-- Claim C7, witness: inserting a concrete held result clears the session
and reports the inserted text and the autosave trigger. -/
theorem insertAiContent_truthyGuard_witness :
    insertAiContent ⟨"old prompt", false, some ("Great text"), true⟩
      = (⟨"", false, none, false⟩, some ("Great text"), true) :=
  (insertAiContent_truthyGuard ⟨"old prompt", false, some ("Great text"), true⟩).2.2
    ("Great text") rfl (by decide)

/-- Claim C8: for every submit with an empty user prompt and a mode other
than `continue`, the controller derives a non-empty canned instruction from
the mode and dispatches exactly one backend request carrying it in the task
payload; in particular the empty-prompt summarize canned instruction is the
fixed summarize sentence. -/
theorem handleAiRequest_cannedInstruction (env : GenEnv) (st : AiSession)
    (context : String) (mode : Mode) (k : String)
    (hk : env.apiKey = some k) (hp : st.aiPrompt = "") (hm : mode ≠ Mode.continue') :
    (handleAiRequest env st context mode).2
      = [buildGenRequest (promptFor ("") mode) context mode] ∧
    promptFor ("") mode ≠ "" ∧
    (buildGenRequest (promptFor ("") mode) context mode).contents
      = "Context/Current Text: \"" ++ context ++ "\"\n\nTask: " ++ promptFor ("") mode ∧
    promptFor ("") Mode.summarize = "Summarize this text concisely." := by
  refine ⟨?_, ?_, rfl, rfl⟩
  · obtain ⟨ap, al, ar, sm⟩ := st
    simp only at hp
    subst hp
    have hcalls : (generateWritingAssistance env (promptFor ("") mode) context mode).2
        = [buildGenRequest (promptFor ("") mode) context mode] := by
      simp only [generateWritingAssistance, hk]
      cases env.backend (buildGenRequest (promptFor ("") mode) context mode) <;> simp
    rcases hg : generateWritingAssistance env (promptFor ("") mode) context mode
      with ⟨o, calls⟩
    rw [hg] at hcalls
    cases o <;> simp [handleAiRequest, hm, hg] <;> simpa using hcalls
  · cases mode <;> simp [promptFor]

/-- Claim C8, witness: a concrete empty-prompt summarize submit dispatches
one request carrying the canned non-empty summarize instruction. -/
theorem handleAiRequest_cannedInstruction_witness :
    (handleAiRequest ⟨some ("k"), fun _ => BackendResult.failure⟩ ⟨"", false, none, true⟩
        ("x") Mode.summarize).2
      = [buildGenRequest (promptFor ("") Mode.summarize) ("x") Mode.summarize] ∧
    promptFor ("") Mode.summarize ≠ "" :=
  ⟨(handleAiRequest_cannedInstruction ⟨some ("k"), fun _ => BackendResult.failure⟩
      ⟨"", false, none, true⟩ ("x") Mode.summarize ("k") rfl rfl (by decide)).1,
   (handleAiRequest_cannedInstruction ⟨some ("k"), fun _ => BackendResult.failure⟩
      ⟨"", false, none, true⟩ ("x") Mode.summarize ("k") rfl rfl (by decide)).2.1⟩

/-- Claim C9: a title change persists `docylit-title` immediately and
updates the title state, while leaving the debounce timer, the
saving flag, the content key, the editing surface and the write log all
unchanged — for every state, including states with a pending content save
(the write-through is not blocked by it). -/
theorem setTitle_independent (s : SchedState) (t : String) :
    (stepEv s (Ev.setTitleEv t)).storeTitle = some t ∧
    (stepEv s (Ev.setTitleEv t)).title = t ∧
    (stepEv s (Ev.setTitleEv t)).timer = s.timer ∧
    (stepEv s (Ev.setTitleEv t)).isSaving = s.isSaving ∧
    (stepEv s (Ev.setTitleEv t)).contentWrites = s.contentWrites ∧
    (stepEv s (Ev.setTitleEv t)).storeContent = s.storeContent ∧
    (stepEv s (Ev.setTitleEv t)).editorHTML = s.editorHTML :=
  ⟨rfl, rfl, rfl, rfl, rfl, rfl, rfl⟩

/-- Claim C10: every debounce-timer fire writes both persisted keys, the
content key with the surface's current markup and the title key with the
title captured when the timer was scheduled; in the scenario
edit-then-retitle, the fire therefore overwrites `docylit-title` with the
stale pre-retitle value even though the title state has moved on. -/
theorem saveTimer_writesBothKeys_staleTitle (s : SchedState) (h t2 : String) :
    ((runEvs s ([Ev.edit h, Ev.setTitleEv t2] ++ ticks DEBOUNCE_MS)).storeContent = some h ∧
     (runEvs s ([Ev.edit h, Ev.setTitleEv t2] ++ ticks DEBOUNCE_MS)).storeTitle
       = some s.title ∧
     (runEvs s ([Ev.edit h, Ev.setTitleEv t2] ++ ticks DEBOUNCE_MS)).title = t2 ∧
     (runEvs s ([Ev.edit h, Ev.setTitleEv t2] ++ ticks DEBOUNCE_MS)).contentWrites
       = s.contentWrites ++ [(h, s.title)]) ∧
    (∀ (s' : SchedState) (n : Nat) (t : String), s'.timer = some (n, t) → n ≤ 1 →
      (tick s').storeTitle = some t ∧ (tick s').storeContent = some s'.editorHTML) := by
  constructor
  · have h2 : runEvs s [Ev.edit h, Ev.setTitleEv t2] =
        { s with editorHTML := h, isSaving := true, timer := some (DEBOUNCE_MS, s.title),
                 title := t2, storeTitle := some t2 } := rfl
    rw [runEvs_append, h2]
    have hf := ticks_fire DEBOUNCE_MS s.title
      { s with editorHTML := h, isSaving := true, timer := some (DEBOUNCE_MS, s.title),
               title := t2, storeTitle := some t2 } rfl (by simp [DEBOUNCE_MS])
    rw [hf]
    exact ⟨rfl, rfl, rfl, rfl⟩
  · intro s' n t hsome hn
    simp [tick, hsome, hn]
    exact ⟨rfl, rfl⟩

/-- Claim C10, witness: a concrete edit-then-retitle run persists the stale
captured title, and a concrete timer fire writes both keys. -/
theorem saveTimer_writesBothKeys_staleTitle_witness :
    (runEvs ⟨"T", "", false, none, none, none, []⟩
        ([Ev.edit ("h1"), Ev.setTitleEv ("T2")] ++ ticks DEBOUNCE_MS)).storeContent
      = some ("h1") ∧
    (runEvs ⟨"T", "", false, none, none, none, []⟩
        ([Ev.edit ("h1"), Ev.setTitleEv ("T2")] ++ ticks DEBOUNCE_MS)).storeTitle
      = some ("T") ∧
    (runEvs ⟨"T", "", false, none, none, none, []⟩
        ([Ev.edit ("h1"), Ev.setTitleEv ("T2")] ++ ticks DEBOUNCE_MS)).title = "T2" ∧
    (tick ⟨"T", "E", true, some (1, "cap"), none, none, []⟩).storeTitle = some ("cap") :=
  ⟨(saveTimer_writesBothKeys_staleTitle ⟨"T", "", false, none, none, none, []⟩
      ("h1") ("T2")).1.1,
   (saveTimer_writesBothKeys_staleTitle ⟨"T", "", false, none, none, none, []⟩
      ("h1") ("T2")).1.2.1,
   (saveTimer_writesBothKeys_staleTitle ⟨"T", "", false, none, none, none, []⟩
      ("h1") ("T2")).1.2.2.1,
   ((saveTimer_writesBothKeys_staleTitle ⟨"T", "", false, none, none, none, []⟩
      ("h1") ("T2")).2
      ⟨"T", "E", true, some (1, "cap"), none, none, []⟩ 1 ("cap") rfl (by decide)).1⟩
